import Mathlib

/-!
Shallow embedding of the `eosio.wram` contract (RAMSDAO/eosio.wram).

The contract wraps system RAM into a fungible `WRAM` token at 1:1.  The
entry points and handlers in `src/eosio.wram.cpp` and the configuration
action in `src/src/config.cpp` are translated directly from the source.
The token ledger (`src/token.cpp`) and the egress blocklist actions
(`src/egress.cpp`) are included by `eosio.wram.cpp` but are not part of
the repository snapshot, so those primitives are modelled from the
specification, as marked on each definition.

Inline EOSIO actions either all execute or the whole transaction is
rolled back, so each operation is a function `State → Option State`
where `none` is an abort of the entire trigger.
-/

namespace Wram

/-- Account identities (EOSIO account names), abstracted as naturals. -/
abbrev Name : Type := Nat

/-- Token symbol codes (raw `symbol_code` values), abstracted as naturals. -/
abbrev SymCode : Type := Nat

/-- The contract's own account `eosio.wram`, i.e. `get_self()`. -/
def SELF : Name := 1

/-- The custodial pool account `RAM_BANK = "ramdeposit11"` (eosio.wram.hpp line 15). -/
def RAM_BANK : Name := 2

/-- Raw code of `symbol("WRAM", 0)` (eosio.wram.hpp line 14). -/
def RAM_SYMBOL : SymCode := 1296126551

/-- A token quantity together with its symbol code (EOSIO `asset`). -/
structure Asset where
  amount : Int
  sym : SymCode
deriving DecidableEq

/-- Row of the `stat` table (eosio.wram.hpp lines 233-239). -/
structure CurrencyStats where
  supply : Asset
  max_supply : Asset
  issuer : Name
deriving DecidableEq

/-- Row of the `config` singleton with its field defaults
(eosio.wram.hpp lines 39-42): wrap enabled, unwrap disabled. -/
structure ConfigRow where
  wrap_ram_enabled : Bool := true
  unwrap_ram_enabled : Bool := false
deriving DecidableEq

/-- The singleton read `get_or_default()` used by the handlers. -/
def get_or_default (c : Option ConfigRow) : ConfigRow := c.getD {}

/-- Adjust a stats row's supply by `d`, keeping its symbol. -/
def incSupply (d : Int) (c : CurrencyStats) : CurrencyStats :=
  { c with supply := ⟨c.supply.amount + d, c.supply.sym⟩ }

/-- Set a stats row's ceiling to `m`, keeping its symbol. -/
def setMax (m : Int) (c : CurrencyStats) : CurrencyStats :=
  { c with max_supply := ⟨m, c.max_supply.sym⟩ }

/-- Lookup in the `accounts` table, keyed by (owner, symbol code). -/
def lookupBal : List ((Name × SymCode) × Int) → (Name × SymCode) → Option Int
  | [], _ => none
  | (k, v) :: t, k' => if k = k' then some v else lookupBal t k'

/-- Add `d` to the balance at key `k`, creating the row if absent. -/
def addBal : List ((Name × SymCode) × Int) → (Name × SymCode) → Int → List ((Name × SymCode) × Int)
  | [], k, d => [(k, d)]
  | (k', v) :: t, k, d => if k' = k then (k', v + d) :: t else (k', v) :: addBal t k d

/-- Remove the row at key `k` (used by `close`). -/
def eraseBal : List ((Name × SymCode) × Int) → (Name × SymCode) → List ((Name × SymCode) × Int)
  | [], _ => []
  | (k', v) :: t, k => if k' = k then t else (k', v) :: eraseBal t k

/-- Balance at a key, defaulting to zero when the row is absent. -/
def getBal (l : List ((Name × SymCode) × Int)) (k : Name × SymCode) : Int :=
  (lookupBal l k).getD 0

/-- Sum of all account balances recorded for symbol `s`. -/
def sumSym : List ((Name × SymCode) × Int) → SymCode → Int
  | [], _ => 0
  | (k, v) :: t, s => (if k.2 = s then v else 0) + sumSym t s

/-- Lookup in the `stat` table, keyed by symbol code. -/
def lookupStats : List (SymCode × CurrencyStats) → SymCode → Option CurrencyStats
  | [], _ => none
  | (k, v) :: t, s => if k = s then some v else lookupStats t s

/-- Modify the `stat` row at symbol `s`, when present. -/
def modStats : List (SymCode × CurrencyStats) → SymCode → (CurrencyStats → CurrencyStats) →
    List (SymCode × CurrencyStats)
  | [], _, _ => []
  | (k, v) :: t, s, f => if k = s then (k, f v) :: t else (k, v) :: modStats t s f

/-- The persistent contract state together with the external RAM holdings.
`ram` is the system RAM byte balance of each account, owned by the external
resource market (`eosio.system`); the other four fields are the contract's
own tables. -/
structure State where
  config : Option ConfigRow
  egress : List Name
  accounts : List ((Name × SymCode) × Int)
  stats : List (SymCode × CurrencyStats)
  ram : Name → Int

/-- Modelled from the spec: `src/token.cpp` is missing from the repository;
`sub_balance` fails when the payer row is absent or smaller than the debit
(spec section 4.1, transfer/retire preconditions). -/
def sub_balance (owner : Name) (v : Asset) (st : State) : Option State :=
  match lookupBal st.accounts (owner, v.sym) with
  | none => none
  | some bal =>
    if v.amount ≤ bal then
      some { st with accounts := addBal st.accounts (owner, v.sym) (-v.amount) }
    else none

/-- Modelled from the spec: `src/token.cpp` is missing from the repository;
`add_balance` credits the row, creating it when absent (spec section 4.1). -/
def add_balance (owner : Name) (v : Asset) (st : State) : State :=
  { st with accounts := addBal st.accounts (owner, v.sym) v.amount }

/-- Modelled from the spec: `src/token.cpp` is missing from the repository;
`create` fails when the symbol already exists or the ceiling is not positive
or exceeds the platform ceiling (spec section 4.1). -/
def create (issuer : Name) (maximum_supply : Asset) (st : State) : Option State :=
  match lookupStats st.stats maximum_supply.sym with
  | some _ => none
  | none =>
    if 0 < maximum_supply.amount ∧ maximum_supply.amount ≤ 4611686018427387903 then
      some { st with stats :=
        (maximum_supply.sym, ⟨⟨0, maximum_supply.sym⟩, maximum_supply, issuer⟩) :: st.stats }
    else none

/-- Modelled from the spec: `src/token.cpp` is missing from the repository;
`issue` requires the recipient to be the issuer (eosio.wram.hpp line 138),
a positive amount within the remaining ceiling, raises the supply and
credits the recipient (spec section 4.1). -/
def issue (t : Name) (q : Asset) (st : State) : Option State :=
  match lookupStats st.stats q.sym with
  | none => none
  | some cs =>
    if t = cs.issuer ∧ 0 < q.amount ∧ q.amount ≤ cs.max_supply.amount - cs.supply.amount then
      some (add_balance t q { st with stats := modStats st.stats q.sym (incSupply q.amount) })
    else none

/-- Modelled from the spec: `src/token.cpp` is missing from the repository;
`retire` burns a positive amount from the issuer's own balance and lowers
the supply by the same amount (spec section 4.1). -/
def retire (q : Asset) (st : State) : Option State :=
  match lookupStats st.stats q.sym with
  | none => none
  | some cs =>
    if 0 < q.amount then
      sub_balance cs.issuer q
        { st with stats := modStats st.stats q.sym (incSupply (-q.amount)) }
    else none

/-- Point update of the external RAM map: debit `f` by `b` and credit `t`. -/
def updRam (r : Name → Int) (f t : Name) (b : Int) : Name → Int :=
  fun a => r a - (if a = f then b else 0) + (if a = t then b else 0)

/-- The external resource market (`eosio.system::ramtransfer`), an external
collaborator modelled at its interface (spec sections 2 and 4.2): moves a
positive number of RAM bytes from `f` to `t`, requiring `f` to hold them. -/
def ramtransferSys (f t : Name) (bytes : Int) (st : State) : Option State :=
  if 0 < bytes ∧ bytes ≤ st.ram f then
    some { st with ram := updRam st.ram f t bytes }
  else none

/-- Translation of `wram::unwrap_ram` (eosio.wram.cpp lines 14-31): checks the
symbol and the unwrap flag, retires the quantity from the contract, then
releases the RAM bytes from `RAM_BANK` to the user. -/
def unwrap_ram (t : Name) (q : Asset) (st : State) : Option State :=
  if q.sym = RAM_SYMBOL then
    if (get_or_default st.config).unwrap_ram_enabled then
      match retire q st with
      | none => none
      | some st1 => ramtransferSys RAM_BANK t q.amount st1
    else none
  else none

/-- Modelled from the spec: `src/token.cpp` and `src/egress.cpp` are missing
from the repository; `transfer` fails on self transfer, non-positive amount,
unknown symbol, insufficient balance, or a blocklisted recipient
(`check_disable_transfer`, spec sections 4.1 and 9), then moves the quantity;
a transfer whose recipient is the contract itself is the internal delivery
step of `unwrap` and hands over to `unwrap_ram` (eosio.wram.cpp lines 11
and 86). -/
def transfer (f t : Name) (q : Asset) (st : State) : Option State :=
  match lookupStats st.stats q.sym with
  | none => none
  | some _ =>
    if f ≠ t ∧ 0 < q.amount ∧ t ∉ st.egress then
      match sub_balance f q st with
      | none => none
      | some st1 =>
        let st2 := add_balance t q st1
        if t = SELF then unwrap_ram f q st2 else some st2
    else none

/-- Modelled from the spec: `src/token.cpp` is missing from the repository;
`open` requires a known symbol and creates a zero row when absent
(spec section 4.1). -/
def openAct (owner : Name) (s : SymCode) (st : State) : Option State :=
  match lookupStats st.stats s with
  | none => none
  | some _ =>
    match lookupBal st.accounts (owner, s) with
    | some _ => some st
    | none => some { st with accounts := addBal st.accounts (owner, s) 0 }

/-- Modelled from the spec: `src/token.cpp` is missing from the repository;
`close` removes the row, which must exist and hold exactly zero
(spec section 4.1). -/
def closeAct (owner : Name) (s : SymCode) (st : State) : Option State :=
  match lookupBal st.accounts (owner, s) with
  | none => none
  | some bal =>
    if bal = 0 then some { st with accounts := eraseBal st.accounts (owner, s) } else none

/-- Translation of `wram::unwrap` (eosio.wram.cpp lines 8-12): transfers the
owner's WRAM to the contract, which triggers `unwrap_ram`. -/
def unwrap (owner : Name) (bytes : Int) (st : State) : Option State :=
  transfer owner SELF ⟨bytes, RAM_SYMBOL⟩ st

/-- Translation of `wram::wrap_ram` (eosio.wram.cpp lines 33-53): positive
quantity, no self mint, move the RAM bytes to `RAM_BANK`, issue the WRAM to
the contract and deliver it to the user. -/
def wrap_ram (t : Name) (bytes : Int) (st : State) : Option State :=
  if 0 < bytes then
    if t ≠ SELF then
      match ramtransferSys SELF RAM_BANK bytes st with
      | none => none
      | some st1 =>
        match issue SELF ⟨bytes, RAM_SYMBOL⟩ st1 with
        | none => none
        | some st2 => transfer SELF t ⟨bytes, RAM_SYMBOL⟩ st2
    else none
  else none

/-- Translation of `wram::on_logbuyram` (eosio.wram.cpp lines 55-61): ignores
purchases not delivered to the contract, otherwise wraps for the payer.
There is no policy check on this path. -/
def on_logbuyram (payer receiver : Name) (_q : Asset) (bytes _ram_bytes : Int)
    (st : State) : Option State :=
  if receiver ≠ SELF then some st else wrap_ram payer bytes st

/-- Translation of `wram::on_ramtransfer` (eosio.wram.cpp lines 64-77):
ignores transfers not sent to the contract and the sentinel memo, checks
the wrap flag, then wraps for the sender. -/
def on_ramtransfer (f t : Name) (bytes : Int) (memo : String) (st : State) : Option State :=
  if t ≠ SELF then some st
  else if memo = "ignore" then some st
  else if (get_or_default st.config).wrap_ram_enabled then wrap_ram f bytes st
  else none

/-- Translation of `wram::on_transfer` (eosio.wram.cpp lines 80-88): ignores
notifications not addressed to the contract and unconditionally rejects the
rest. -/
def on_transfer (_f t : Name) (_q : Asset) (_memo : String) (st : State) : Option State :=
  if t ≠ SELF then some st else none

/-- Translation of `wram::cfg` (src/src/config.cpp): overwrites the config
singleton with the two flags. -/
def cfg (w u : Bool) (st : State) : Option State :=
  some { st with config := some ⟨w, u⟩ }

/-- Modelled from the spec: `src/egress.cpp` is missing from the repository;
`addegress` is an idempotent set insertion (spec section 4.3). -/
def addegress (accounts : List Name) (st : State) : Option State :=
  some { st with egress := accounts.foldl (fun l a => if a ∈ l then l else a :: l) st.egress }

/-- Modelled from the spec: `src/egress.cpp` is missing from the repository;
`removeegress` is an idempotent set removal (spec section 4.3). -/
def removeegress (accounts : List Name) (st : State) : Option State :=
  some { st with egress := st.egress.filter (fun a => a ∉ accounts) }

/-- Queued inline actions of `wram::migrate` (eosio.wram.cpp lines 105-127),
run against the state `st0` left by the action body, with `cs` the stats row
read in the body: require the contract's own balance row, retire it when
positive, move the residual RAM (supply minus that balance, both read in the
body) to `RAM_BANK`, then issue 128 GiB of WRAM and transfer it to
`RAM_BANK`. -/
def migrateRest (cs : CurrencyStats) (st0 : State) : Option State :=
  match lookupBal st0.accounts (SELF, RAM_SYMBOL) with
  | none => none
  | some bal =>
    match (if 0 < bal then retire ⟨bal, RAM_SYMBOL⟩ st0 else some st0) with
    | none => none
    | some st1 =>
      match (if 0 < cs.supply.amount - bal then
               ramtransferSys SELF RAM_BANK (cs.supply.amount - bal) st1
             else some st1) with
      | none => none
      | some st2 =>
        match issue SELF ⟨137438953472, RAM_SYMBOL⟩ st2 with
        | none => none
        | some st3 => transfer SELF RAM_BANK ⟨137438953472, RAM_SYMBOL⟩ st3

/-- Translation of `wram::migrate` (eosio.wram.cpp lines 92-128): requires
the stats row, refuses when the ceiling already equals 256 GiB, raises the
ceiling, then runs the queued inline actions of `migrateRest`. -/
def migrate (st : State) : Option State :=
  match lookupStats st.stats RAM_SYMBOL with
  | none => none
  | some cs =>
    if cs.max_supply.amount ≠ 274877906944 then
      migrateRest cs { st with stats := modStats st.stats RAM_SYMBOL (setMax 274877906944) }
    else none

/-- One external trigger: either a direct action on the contract or a
notification together with the external state change that raised it. -/
inductive Act where
  | cfgA (w u : Bool)
  | addegressA (accounts : List Name)
  | removeegressA (accounts : List Name)
  | unwrapA (owner : Name) (bytes : Int)
  | onRamtransferT (f t : Name) (bytes : Int) (memo : String)
  | onLogbuyramT (payer receiver : Name) (q : Asset) (bytes ram_bytes : Int)
  | onTransferN (f t : Name) (q : Asset) (memo : String)
  | createA (issuer : Name) (maximum_supply : Asset)
  | issueA (t : Name) (q : Asset)
  | retireA (q : Asset)
  | transferA (f t : Name) (q : Asset)
  | openA (owner : Name) (s : SymCode)
  | closeA (owner : Name) (s : SymCode)
  | migrateA

/-- Execute one trigger.  The `onRamtransferT` trigger performs the system
RAM move that raised the notification and then the handler, atomically; the
`onLogbuyramT` trigger credits the bought RAM to the receiver and then runs
the handler. -/
def exec (a : Act) (st : State) : Option State :=
  match a with
  | .cfgA w u => cfg w u st
  | .addegressA l => addegress l st
  | .removeegressA l => removeegress l st
  | .unwrapA o b => unwrap o b st
  | .onRamtransferT f t b m =>
    match ramtransferSys f t b st with
    | none => none
    | some st1 => on_ramtransfer f t b m st1
  | .onLogbuyramT p r q b rb =>
    on_logbuyram p r q b rb
      { st with ram := fun a => st.ram a + (if a = r then b else 0) }
  | .onTransferN f t q m => on_transfer f t q m st
  | .createA i m => create i m st
  | .issueA t q => issue t q st
  | .retireA q => retire q st
  | .transferA f t q => transfer f t q st
  | .openA o s => openAct o s st
  | .closeA o s => closeAct o s st
  | .migrateA => migrate st

/-- Recorded supply in a `stat` table for symbol `s`, zero when unknown. -/
def supplySumL (l : List (SymCode × CurrencyStats)) (s : SymCode) : Int :=
  match lookupStats l s with
  | some cs => cs.supply.amount
  | none => 0

/-- Recorded supply for symbol `s`, zero when the symbol is unknown. -/
def supplySum (st : State) (s : SymCode) : Int := supplySumL st.stats s

/-- First conjunct of the global ledger invariant: for every symbol the
recorded supply equals the sum of all account balances. -/
def SumInv (st : State) : Prop :=
  ∀ s, supplySumL st.stats s = sumSym st.accounts s

/-- Second conjunct of the global ledger invariant: every recorded supply is
at most its ceiling. -/
def CapInv (st : State) : Prop :=
  ∀ s cs, lookupStats st.stats s = some cs → cs.supply.amount ≤ cs.max_supply.amount

/-- The supply cap holds at every symbol except possibly `x`. -/
def CapExcept (st : State) (x : SymCode) : Prop :=
  ∀ s cs, s ≠ x → lookupStats st.stats s = some cs → cs.supply.amount ≤ cs.max_supply.amount

/-- The global ledger invariant of spec section 8. -/
def Inv (st : State) : Prop := SumInv st ∧ CapInv st

/-- States reachable from a fresh deployment (empty tables, no config row)
by any sequence of triggers. -/
inductive Reachable : State → Prop where
  | init (r : Name → Int) : Reachable ⟨none, [], [], [], r⟩
  | step {st st' : State} (a : Act) : Reachable st → exec a st = some st' → Reachable st'

/-! ### Concrete states used below -/

/-- A state with wrapping disabled and unwrapping enabled, a WRAM stats row
and 1000 bytes of RAM held by the contract. -/
def stWrapOff : State :=
  { config := some ⟨false, true⟩, egress := [], accounts := [],
    stats := [(RAM_SYMBOL, ⟨⟨0, RAM_SYMBOL⟩, ⟨1000, RAM_SYMBOL⟩, SELF⟩)],
    ram := fun a => if a = SELF then 1000 else 0 }

/-- A state with both policy flags disabled. -/
def stAllOff : State :=
  { config := some ⟨false, false⟩, egress := [], accounts := [], stats := [],
    ram := fun _ => 0 }

/-- A state with no config row written. -/
def stNoCfg : State :=
  { config := none, egress := [], accounts := [], stats := [], ram := fun _ => 0 }

/-- A state whose egress blocklist contains account 50. -/
def stBlock : State :=
  { config := none, egress := [50], accounts := [], stats := [], ram := fun _ => 0 }

/-- A pre-migration state: WRAM stats row with the old ceiling and a zero
balance row for the contract. -/
def stMig : State :=
  { config := none, egress := [], accounts := [((SELF, RAM_SYMBOL), 0)],
    stats := [(RAM_SYMBOL, ⟨⟨0, RAM_SYMBOL⟩, ⟨1000, RAM_SYMBOL⟩, SELF⟩)],
    ram := fun _ => 0 }

/-- The state produced by a successful `migrate` on `stMig`. -/
def stMig' : State :=
  { config := none, egress := [],
    accounts := [((SELF, RAM_SYMBOL), 0), ((RAM_BANK, RAM_SYMBOL), 137438953472)],
    stats := [(RAM_SYMBOL, ⟨⟨137438953472, RAM_SYMBOL⟩, ⟨274877906944, RAM_SYMBOL⟩, SELF⟩)],
    ram := fun _ => 0 }

/-- A state whose WRAM ceiling already equals the migration target. -/
def stC6Done : State :=
  { config := none, egress := [], accounts := [],
    stats := [(RAM_SYMBOL, ⟨⟨0, RAM_SYMBOL⟩, ⟨274877906944, RAM_SYMBOL⟩, SELF⟩)],
    ram := fun _ => 0 }

/-- A state with a WRAM stats row at the old ceiling but no balance row for
the contract itself. -/
def stNoRow : State :=
  { config := none, egress := [], accounts := [],
    stats := [(RAM_SYMBOL, ⟨⟨0, RAM_SYMBOL⟩, ⟨1000, RAM_SYMBOL⟩, SELF⟩)],
    ram := fun _ => 0 }

/-- A state with both flags enabled, suitable for a wrap/unwrap round trip
by account 100. -/
def stRT : State :=
  { config := some ⟨true, true⟩, egress := [], accounts := [],
    stats := [(RAM_SYMBOL, ⟨⟨0, RAM_SYMBOL⟩, ⟨10000000, RAM_SYMBOL⟩, SELF⟩)],
    ram := fun a => if a = 100 then 1000 else 0 }

/-- The fresh deployment state with empty external RAM holdings. -/
def stInit : State :=
  { config := none, egress := [], accounts := [], stats := [], ram := fun _ => 0 }

/-- The state left by a successful ramtransfer-triggered wrap of `n` bytes
sent by `u`: RAM moved from `u` to the contract and on to `RAM_BANK`, `n`
WRAM issued to the contract and delivered to `u`. -/
def wrapResult (st : State) (u : Name) (n : Int) : State :=
  { st with
    accounts := addBal (addBal (addBal st.accounts (SELF, RAM_SYMBOL) n)
      (SELF, RAM_SYMBOL) (-n)) (u, RAM_SYMBOL) n,
    stats := modStats st.stats RAM_SYMBOL (incSupply n),
    ram := updRam (updRam st.ram u SELF n) SELF RAM_BANK n }

/-- The state left after `u` unwraps the `n` tokens of `wrapResult`: the
tokens return to the contract and are retired, and `RAM_BANK` releases the
`n` bytes back to `u`. -/
def unwrapResult (st : State) (u : Name) (n : Int) : State :=
  { st with
    accounts := addBal (addBal (addBal (wrapResult st u n).accounts
      (u, RAM_SYMBOL) (-n)) (SELF, RAM_SYMBOL) n) (SELF, RAM_SYMBOL) (-n),
    stats := modStats (modStats st.stats RAM_SYMBOL (incSupply n)) RAM_SYMBOL (incSupply (-n)),
    ram := updRam (updRam (updRam st.ram u SELF n) SELF RAM_BANK n) RAM_BANK u n }

/-! ### Association list lemmas -/

theorem lookupBal_addBal (l : List ((Name × SymCode) × Int)) (k k' : Name × SymCode) (d : Int) :
    lookupBal (addBal l k d) k' =
      if k = k' then some ((lookupBal l k).getD 0 + d) else lookupBal l k' := by
  induction l with
  | nil => by_cases h : k = k' <;> simp [addBal, lookupBal, h]
  | cons p t ih =>
    obtain ⟨pk, pv⟩ := p
    by_cases h1 : pk = k
    · subst h1
      by_cases h2 : pk = k' <;> simp [addBal, lookupBal, h2]
    · by_cases h2 : pk = k'
      · subst h2
        have h3 : k ≠ pk := fun e => h1 e.symm
        simp [addBal, lookupBal, h1, h3]
      · simp [addBal, lookupBal, h1, h2, ih]

theorem sumSym_addBal (l : List ((Name × SymCode) × Int)) (k : Name × SymCode) (d : Int)
    (s : SymCode) :
    sumSym (addBal l k d) s = sumSym l s + (if k.2 = s then d else 0) := by
  induction l with
  | nil => by_cases h : k.2 = s <;> simp [addBal, sumSym, h]
  | cons p t ih =>
    obtain ⟨pk, pv⟩ := p
    by_cases h1 : pk = k
    · subst h1
      by_cases h2 : pk.2 = s
      · simp [addBal, sumSym, h2]
        ring
      · simp [addBal, sumSym, h2]
    · simp only [addBal, if_neg h1, sumSym, ih]
      ring

theorem sumSym_eraseBal (l : List ((Name × SymCode) × Int)) (k : Name × SymCode) (s : SymCode)
    (h : lookupBal l k = some 0) :
    sumSym (eraseBal l k) s = sumSym l s := by
  induction l with
  | nil => simp [lookupBal] at h
  | cons p t ih =>
    obtain ⟨pk, pv⟩ := p
    by_cases h1 : pk = k
    · simp only [lookupBal, if_pos h1, Option.some.injEq] at h
      subst h
      simp [eraseBal, sumSym, if_pos h1]
    · simp only [lookupBal, if_neg h1] at h
      simp [eraseBal, sumSym, if_neg h1, ih h]

theorem lookupStats_modStats (l : List (SymCode × CurrencyStats)) (s s' : SymCode)
    (f : CurrencyStats → CurrencyStats) :
    lookupStats (modStats l s f) s' =
      if s = s' then (lookupStats l s').map f else lookupStats l s' := by
  induction l with
  | nil => by_cases h : s = s' <;> simp [modStats, lookupStats, h]
  | cons p t ih =>
    obtain ⟨pk, pv⟩ := p
    by_cases h1 : pk = s
    · subst h1
      by_cases h2 : pk = s' <;> simp [modStats, lookupStats, h2]
    · by_cases h2 : pk = s'
      · subst h2
        have h3 : s ≠ pk := fun e => h1 e.symm
        simp [modStats, lookupStats, h1, h3]
      · simp [modStats, lookupStats, h1, h2, ih]

/-! ### Success characterizations of the primitives -/

theorem sub_balance_char {o : Name} {v : Asset} {st st' : State}
    (h : sub_balance o v st = some st') :
    ∃ bal, lookupBal st.accounts (o, v.sym) = some bal ∧ v.amount ≤ bal ∧
      st' = { st with accounts := addBal st.accounts (o, v.sym) (-v.amount) } := by
  unfold sub_balance at h
  split at h
  · simp at h
  · rename_i bal hbal
    split at h
    · rename_i hle
      exact ⟨bal, hbal, hle, (Option.some.inj h).symm⟩
    · simp at h

theorem create_char {i : Name} {m : Asset} {st st' : State}
    (h : create i m st = some st') :
    lookupStats st.stats m.sym = none ∧ 0 < m.amount ∧
      st' = { st with stats := (m.sym, ⟨⟨0, m.sym⟩, m, i⟩) :: st.stats } := by
  unfold create at h
  split at h
  · simp at h
  · rename_i hnone
    split at h
    · rename_i hcap
      exact ⟨hnone, hcap.1, (Option.some.inj h).symm⟩
    · simp at h

theorem issue_char {t : Name} {q : Asset} {st st' : State}
    (h : issue t q st = some st') :
    ∃ cs, lookupStats st.stats q.sym = some cs ∧ t = cs.issuer ∧ 0 < q.amount ∧
      q.amount ≤ cs.max_supply.amount - cs.supply.amount ∧
      st' = add_balance t q { st with stats := modStats st.stats q.sym (incSupply q.amount) } := by
  unfold issue at h
  split at h
  · simp at h
  · rename_i cs hcs
    split at h
    · rename_i hg
      exact ⟨cs, hcs, hg.1, hg.2.1, hg.2.2, (Option.some.inj h).symm⟩
    · simp at h

theorem retire_char {q : Asset} {st st' : State}
    (h : retire q st = some st') :
    ∃ cs, lookupStats st.stats q.sym = some cs ∧ 0 < q.amount ∧
      sub_balance cs.issuer q
        { st with stats := modStats st.stats q.sym (incSupply (-q.amount)) } = some st' := by
  unfold retire at h
  split at h
  · simp at h
  · rename_i cs hcs
    split at h
    · rename_i hq
      exact ⟨cs, hcs, hq, h⟩
    · simp at h

theorem ramtransferSys_char {f t : Name} {b : Int} {st st' : State}
    (h : ramtransferSys f t b st = some st') :
    0 < b ∧ b ≤ st.ram f ∧ st' = { st with ram := updRam st.ram f t b } := by
  unfold ramtransferSys at h
  split at h
  · rename_i hg
    exact ⟨hg.1, hg.2, (Option.some.inj h).symm⟩
  · simp at h

theorem unwrap_ram_char {t : Name} {q : Asset} {st st' : State}
    (h : unwrap_ram t q st = some st') :
    q.sym = RAM_SYMBOL ∧ (get_or_default st.config).unwrap_ram_enabled = true ∧
      ∃ st1, retire q st = some st1 ∧ ramtransferSys RAM_BANK t q.amount st1 = some st' := by
  unfold unwrap_ram at h
  split at h
  · rename_i hsym
    split at h
    · rename_i hen
      split at h
      · simp at h
      · rename_i st1 h1
        exact ⟨hsym, hen, st1, h1, h⟩
    · simp at h
  · simp at h

theorem transfer_char {f t : Name} {q : Asset} {st st' : State}
    (h : transfer f t q st = some st') :
    ∃ cs, lookupStats st.stats q.sym = some cs ∧ f ≠ t ∧ 0 < q.amount ∧ t ∉ st.egress ∧
      ∃ st1, sub_balance f q st = some st1 ∧
        ((t = SELF ∧ unwrap_ram f q (add_balance t q st1) = some st') ∨
         (t ≠ SELF ∧ st' = add_balance t q st1)) := by
  unfold transfer at h
  split at h
  · simp at h
  · rename_i cs hcs
    split at h
    · rename_i hg
      split at h
      · simp at h
      · rename_i st1 h1
        refine ⟨cs, hcs, hg.1, hg.2.1, hg.2.2, st1, h1, ?_⟩
        split at h
        · rename_i hself
          exact Or.inl ⟨hself, h⟩
        · rename_i hself
          exact Or.inr ⟨hself, (Option.some.inj h).symm⟩
    · simp at h

theorem openAct_char {o : Name} {s : SymCode} {st st' : State}
    (h : openAct o s st = some st') :
    st'.config = st.config ∧ st'.egress = st.egress ∧ st'.ram = st.ram ∧
      st'.stats = st.stats ∧
      (st'.accounts = st.accounts ∨ st'.accounts = addBal st.accounts (o, s) 0) := by
  unfold openAct at h
  split at h
  · simp at h
  · split at h
    · cases Option.some.inj h
      exact ⟨rfl, rfl, rfl, rfl, Or.inl rfl⟩
    · cases Option.some.inj h
      exact ⟨rfl, rfl, rfl, rfl, Or.inr rfl⟩

theorem closeAct_char {o : Name} {s : SymCode} {st st' : State}
    (h : closeAct o s st = some st') :
    lookupBal st.accounts (o, s) = some 0 ∧
      st' = { st with accounts := eraseBal st.accounts (o, s) } := by
  unfold closeAct at h
  split at h
  · simp at h
  · rename_i bal hbal
    split at h
    · rename_i hz
      subst hz
      exact ⟨hbal, (Option.some.inj h).symm⟩
    · simp at h

/-! ### Invariant preservation -/

theorem supplySumL_some {l : List (SymCode × CurrencyStats)} {s : SymCode} {cs : CurrencyStats}
    (h : lookupStats l s = some cs) : supplySumL l s = cs.supply.amount := by
  unfold supplySumL
  rw [h]

theorem supplySumL_none {l : List (SymCode × CurrencyStats)} {s : SymCode}
    (h : lookupStats l s = none) : supplySumL l s = 0 := by
  unfold supplySumL
  rw [h]

theorem lookupStats_cons (k : SymCode) (v : CurrencyStats) (t : List (SymCode × CurrencyStats))
    (s : SymCode) : lookupStats ((k, v) :: t) s = if k = s then some v else lookupStats t s :=
  rfl

theorem supplySumL_cons_self (k : SymCode) (v : CurrencyStats)
    (t : List (SymCode × CurrencyStats)) : supplySumL ((k, v) :: t) k = v.supply.amount := by
  unfold supplySumL
  rw [lookupStats_cons, if_pos rfl]

theorem supplySumL_cons_ne {k s : SymCode} (v : CurrencyStats)
    (t : List (SymCode × CurrencyStats)) (h : k ≠ s) :
    supplySumL ((k, v) :: t) s = supplySumL t s := by
  unfold supplySumL
  rw [lookupStats_cons, if_neg h]

theorem capExcept_of_capInv {st : State} (h : CapInv st) (x : SymCode) : CapExcept st x :=
  fun s cs _ hcs => h s cs hcs

theorem inv_of_invx {st st' : State}
    (H : ∀ x, SumInv st → CapExcept st x → SumInv st' ∧ CapExcept st' x)
    (hInv : Inv st) : Inv st' := by
  refine ⟨(H 0 hInv.1 (capExcept_of_capInv hInv.2 0)).1, ?_⟩
  intro s cs hcs
  exact (H (s + 1) hInv.1 (capExcept_of_capInv hInv.2 (s + 1))).2 s cs (Nat.lt_succ_self s).ne hcs

theorem sumInv_congr {st st' : State} (hacc : st'.accounts = st.accounts)
    (hstats : st'.stats = st.stats) (hs : SumInv st) : SumInv st' := by
  intro s
  rw [hacc, hstats]
  exact hs s

theorem capExcept_congr {st st' : State} {x : SymCode} (hstats : st'.stats = st.stats)
    (hc : CapExcept st x) : CapExcept st' x := by
  intro s cs hsx hcs
  rw [hstats] at hcs
  exact hc s cs hsx hcs

theorem supplySumL_modStats {l : List (SymCode × CurrencyStats)} {sym : SymCode}
    {cs : CurrencyStats} (hcs : lookupStats l sym = some cs) (d : Int) (s : SymCode) :
    supplySumL (modStats l sym (incSupply d)) s =
      supplySumL l s + (if sym = s then d else 0) := by
  unfold supplySumL
  rw [lookupStats_modStats]
  by_cases h : sym = s
  · subst h
    simp [hcs, incSupply]
  · simp [h]

theorem supplySumL_setMax (l : List (SymCode × CurrencyStats)) (sym : SymCode) (m : Int)
    (s : SymCode) :
    supplySumL (modStats l sym (setMax m)) s = supplySumL l s := by
  unfold supplySumL
  rw [lookupStats_modStats]
  by_cases h : sym = s
  · subst h
    cases hq : lookupStats l sym <;> simp [hq, setMax]
  · simp [h]

theorem create_invx {i : Name} {m : Asset} {st st' : State} (x : SymCode)
    (hs : SumInv st) (hc : CapExcept st x) (h : create i m st = some st') :
    SumInv st' ∧ CapExcept st' x := by
  obtain ⟨hnone, hpos, rfl⟩ := create_char h
  constructor
  · intro s
    show supplySumL ((m.sym, ⟨⟨0, m.sym⟩, m, i⟩) :: st.stats) s = sumSym st.accounts s
    by_cases hms : m.sym = s
    · subst hms
      have h0 := hs m.sym
      rw [supplySumL_none hnone] at h0
      rw [supplySumL_cons_self]
      exact h0
    · rw [supplySumL_cons_ne _ _ hms]
      exact hs s
  · intro s cs hsx hcs
    replace hcs : (if m.sym = s then some (⟨⟨0, m.sym⟩, m, i⟩ : CurrencyStats)
        else lookupStats st.stats s) = some cs := hcs
    by_cases hms : m.sym = s
    · rw [if_pos hms] at hcs
      cases Option.some.inj hcs
      simpa using le_of_lt hpos
    · rw [if_neg hms] at hcs
      exact hc s cs hsx hcs

theorem issue_invx {t : Name} {q : Asset} {st st' : State} (x : SymCode)
    (hs : SumInv st) (hc : CapExcept st x) (h : issue t q st = some st') :
    SumInv st' ∧ CapExcept st' x := by
  obtain ⟨cs, hcs, _, hqpos, hqle, rfl⟩ := issue_char h
  constructor
  · intro s
    show supplySumL (modStats st.stats q.sym (incSupply q.amount)) s
      = sumSym (addBal st.accounts (t, q.sym) q.amount) s
    rw [supplySumL_modStats hcs q.amount s, sumSym_addBal, hs s]
  · intro s cs' hsx hcs'
    replace hcs' : lookupStats (modStats st.stats q.sym (incSupply q.amount)) s
        = some cs' := hcs'
    rw [lookupStats_modStats] at hcs'
    by_cases hqs : q.sym = s
    · rw [if_pos hqs, ← hqs, hcs] at hcs'
      simp only [Option.map_some', Option.some.injEq] at hcs'
      subst hcs'
      simp only [incSupply]
      omega
    · rw [if_neg hqs] at hcs'
      exact hc s cs' hsx hcs'

theorem issue_cap_self {t : Name} {q : Asset} {st st' : State}
    (h : issue t q st = some st') :
    ∀ cs', lookupStats st'.stats q.sym = some cs' →
      cs'.supply.amount ≤ cs'.max_supply.amount := by
  obtain ⟨cs, hcs, _, hqpos, hqle, rfl⟩ := issue_char h
  intro cs' hcs'
  replace hcs' : lookupStats (modStats st.stats q.sym (incSupply q.amount)) q.sym
      = some cs' := hcs'
  rw [lookupStats_modStats, if_pos rfl, hcs] at hcs'
  simp only [Option.map_some', Option.some.injEq] at hcs'
  subst hcs'
  simp only [incSupply]
  omega

theorem issue_inv {t : Name} {q : Asset} {st st' : State}
    (hs : SumInv st) (hc : CapExcept st q.sym) (h : issue t q st = some st') : Inv st' := by
  obtain ⟨hs', hc'⟩ := issue_invx q.sym hs hc h
  refine ⟨hs', ?_⟩
  intro s cs' hcs'
  by_cases hqs : s = q.sym
  · subst hqs
    exact issue_cap_self h cs' hcs'
  · exact hc' s cs' hqs hcs'

theorem retire_invx {q : Asset} {st st' : State} (x : SymCode)
    (hs : SumInv st) (hc : CapExcept st x) (h : retire q st = some st') :
    SumInv st' ∧ CapExcept st' x := by
  obtain ⟨cs, hcs, hqpos, hsub⟩ := retire_char h
  obtain ⟨bal, hbal, hle, rfl⟩ := sub_balance_char hsub
  constructor
  · intro s
    show supplySumL (modStats st.stats q.sym (incSupply (-q.amount))) s
      = sumSym (addBal st.accounts (cs.issuer, q.sym) (-q.amount)) s
    rw [supplySumL_modStats hcs (-q.amount) s, sumSym_addBal, hs s]
  · intro s cs' hsx hcs'
    replace hcs' : lookupStats (modStats st.stats q.sym (incSupply (-q.amount))) s
        = some cs' := hcs'
    rw [lookupStats_modStats] at hcs'
    by_cases hqs : q.sym = s
    · rw [if_pos hqs, ← hqs, hcs] at hcs'
      simp only [Option.map_some', Option.some.injEq] at hcs'
      subst hcs'
      have hcap := hc q.sym cs (hqs ▸ hsx) hcs
      simp only [incSupply]
      omega
    · rw [if_neg hqs] at hcs'
      exact hc s cs' hsx hcs'

theorem openAct_invx {o : Name} {s0 : SymCode} {st st' : State} (x : SymCode)
    (hs : SumInv st) (hc : CapExcept st x) (h : openAct o s0 st = some st') :
    SumInv st' ∧ CapExcept st' x := by
  obtain ⟨_, _, _, hstats, hacc⟩ := openAct_char h
  refine ⟨?_, capExcept_congr hstats hc⟩
  rcases hacc with hacc | hacc
  · exact sumInv_congr hacc hstats hs
  · intro s
    rw [hstats, hacc, sumSym_addBal]
    simp [hs s]

theorem closeAct_invx {o : Name} {s0 : SymCode} {st st' : State} (x : SymCode)
    (hs : SumInv st) (hc : CapExcept st x) (h : closeAct o s0 st = some st') :
    SumInv st' ∧ CapExcept st' x := by
  obtain ⟨hz, rfl⟩ := closeAct_char h
  refine ⟨?_, capExcept_congr rfl hc⟩
  intro s
  show supplySumL st.stats s = sumSym (eraseBal st.accounts (o, s0)) s
  rw [sumSym_eraseBal _ _ _ hz]
  exact hs s

theorem ramtransferSys_invx {f t : Name} {b : Int} {st st' : State} (x : SymCode)
    (hs : SumInv st) (hc : CapExcept st x) (h : ramtransferSys f t b st = some st') :
    SumInv st' ∧ CapExcept st' x := by
  obtain ⟨_, _, rfl⟩ := ramtransferSys_char h
  exact ⟨sumInv_congr rfl rfl hs, capExcept_congr rfl hc⟩

theorem unwrap_ram_invx {t : Name} {q : Asset} {st st' : State} (x : SymCode)
    (hs : SumInv st) (hc : CapExcept st x) (h : unwrap_ram t q st = some st') :
    SumInv st' ∧ CapExcept st' x := by
  obtain ⟨_, _, st1, hret, hrts⟩ := unwrap_ram_char h
  obtain ⟨hs1, hc1⟩ := retire_invx x hs hc hret
  exact ramtransferSys_invx x hs1 hc1 hrts

theorem transfer_invx {f t : Name} {q : Asset} {st st' : State} (x : SymCode)
    (hs : SumInv st) (hc : CapExcept st x) (h : transfer f t q st = some st') :
    SumInv st' ∧ CapExcept st' x := by
  obtain ⟨cs, hcs, _, _, _, st1, hsub, hrest⟩ := transfer_char h
  obtain ⟨bal, hbal, hle, rfl⟩ := sub_balance_char hsub
  have hs2 : SumInv (add_balance t q
      { st with accounts := addBal st.accounts (f, q.sym) (-q.amount) }) := by
    intro s
    show supplySumL st.stats s
      = sumSym (addBal (addBal st.accounts (f, q.sym) (-q.amount)) (t, q.sym) q.amount) s
    rw [sumSym_addBal, sumSym_addBal, hs s]
    by_cases hqs : q.sym = s <;> simp [hqs]
  have hc2 : CapExcept (add_balance t q
      { st with accounts := addBal st.accounts (f, q.sym) (-q.amount) }) x :=
    capExcept_congr rfl hc
  rcases hrest with ⟨_, hun⟩ | ⟨_, rfl⟩
  · exact unwrap_ram_invx x hs2 hc2 hun
  · exact ⟨hs2, hc2⟩

theorem wrap_ram_invx {t : Name} {b : Int} {st st' : State} (x : SymCode)
    (hs : SumInv st) (hc : CapExcept st x) (h : wrap_ram t b st = some st') :
    SumInv st' ∧ CapExcept st' x := by
  unfold wrap_ram at h
  split at h
  · split at h
    · split at h
      · simp at h
      · rename_i st1 h1
        split at h
        · simp at h
        · rename_i st2 h2
          obtain ⟨hs1, hc1⟩ := ramtransferSys_invx x hs hc h1
          obtain ⟨hs2, hc2⟩ := issue_invx x hs1 hc1 h2
          exact transfer_invx x hs2 hc2 h
    · simp at h
  · simp at h

theorem on_ramtransfer_invx {f t : Name} {b : Int} {m : String} {st st' : State} (x : SymCode)
    (hs : SumInv st) (hc : CapExcept st x) (h : on_ramtransfer f t b m st = some st') :
    SumInv st' ∧ CapExcept st' x := by
  unfold on_ramtransfer at h
  split at h
  · cases Option.some.inj h
    exact ⟨hs, hc⟩
  · split at h
    · cases Option.some.inj h
      exact ⟨hs, hc⟩
    · split at h
      · exact wrap_ram_invx x hs hc h
      · simp at h

theorem on_logbuyram_invx {p r : Name} {q : Asset} {b rb : Int} {st st' : State} (x : SymCode)
    (hs : SumInv st) (hc : CapExcept st x) (h : on_logbuyram p r q b rb st = some st') :
    SumInv st' ∧ CapExcept st' x := by
  unfold on_logbuyram at h
  split at h
  · cases Option.some.inj h
    exact ⟨hs, hc⟩
  · exact wrap_ram_invx x hs hc h

theorem migrateRest_inv {cs : CurrencyStats} {st0 st' : State}
    (hs : SumInv st0) (hc : CapExcept st0 RAM_SYMBOL)
    (h : migrateRest cs st0 = some st') : Inv st' := by
  unfold migrateRest at h
  split at h
  · simp at h
  · rename_i bal hbal
    split at h
    · simp at h
    · rename_i st1 h1
      split at h
      · simp at h
      · rename_i st2 h2
        split at h
        · simp at h
        · rename_i st3 h3
          have hstep1 : SumInv st1 ∧ CapExcept st1 RAM_SYMBOL := by
            split at h1
            · exact retire_invx RAM_SYMBOL hs hc h1
            · cases Option.some.inj h1
              exact ⟨hs, hc⟩
          have hstep2 : SumInv st2 ∧ CapExcept st2 RAM_SYMBOL := by
            split at h2
            · exact ramtransferSys_invx RAM_SYMBOL hstep1.1 hstep1.2 h2
            · cases Option.some.inj h2
              exact hstep1
          have hInv3 : Inv st3 := issue_inv hstep2.1 hstep2.2 h3
          exact inv_of_invx (fun x hs' hc' => transfer_invx x hs' hc' h) hInv3

theorem migrate_inv {st st' : State} (hInv : Inv st) (h : migrate st = some st') : Inv st' := by
  unfold migrate at h
  split at h
  · simp at h
  · rename_i cs hcs
    split at h
    · refine migrateRest_inv ?_ ?_ h
      · intro s
        show supplySumL (modStats st.stats RAM_SYMBOL (setMax 274877906944)) s
          = sumSym st.accounts s
        rw [supplySumL_setMax]
        exact hInv.1 s
      · intro s cs' hsx hcs'
        replace hcs' : lookupStats (modStats st.stats RAM_SYMBOL (setMax 274877906944)) s
            = some cs' := hcs'
        rw [lookupStats_modStats, if_neg (fun e => hsx e.symm)] at hcs'
        exact hInv.2 s cs' hcs'
    · simp at h

theorem exec_preserves_inv (a : Act) {st st' : State} (hInv : Inv st)
    (h : exec a st = some st') : Inv st' := by
  cases a with
  | cfgA w u =>
    replace h : cfg w u st = some st' := h
    cases Option.some.inj h
    exact ⟨sumInv_congr rfl rfl hInv.1, fun s cs hcs => hInv.2 s cs hcs⟩
  | addegressA l =>
    replace h : addegress l st = some st' := h
    cases Option.some.inj h
    exact ⟨sumInv_congr rfl rfl hInv.1, fun s cs hcs => hInv.2 s cs hcs⟩
  | removeegressA l =>
    replace h : removeegress l st = some st' := h
    cases Option.some.inj h
    exact ⟨sumInv_congr rfl rfl hInv.1, fun s cs hcs => hInv.2 s cs hcs⟩
  | unwrapA o b =>
    replace h : transfer o SELF ⟨b, RAM_SYMBOL⟩ st = some st' := h
    exact inv_of_invx (fun x hs hc => transfer_invx x hs hc h) hInv
  | onRamtransferT f t b m =>
    replace h : (match ramtransferSys f t b st with
      | none => none
      | some st1 => on_ramtransfer f t b m st1) = some st' := h
    split at h
    · simp at h
    · rename_i st1 h1
      refine inv_of_invx (fun x hs hc => ?_) hInv
      obtain ⟨hs1, hc1⟩ := ramtransferSys_invx x hs hc h1
      exact on_ramtransfer_invx x hs1 hc1 h
  | onLogbuyramT p r q b rb =>
    replace h : on_logbuyram p r q b rb
        { st with ram := fun a => st.ram a + (if a = r then b else 0) } = some st' := h
    refine inv_of_invx (fun x hs hc => ?_) hInv
    have hs1 : SumInv { st with ram := fun a => st.ram a + (if a = r then b else 0) } :=
      sumInv_congr rfl rfl hs
    have hc1 : CapExcept { st with ram := fun a => st.ram a + (if a = r then b else 0) } x :=
      capExcept_congr rfl hc
    exact on_logbuyram_invx x hs1 hc1 h
  | onTransferN f t q m =>
    replace h : on_transfer f t q m st = some st' := h
    unfold on_transfer at h
    split at h
    · cases Option.some.inj h
      exact hInv
    · simp at h
  | createA i m =>
    replace h : create i m st = some st' := h
    exact inv_of_invx (fun x hs hc => create_invx x hs hc h) hInv
  | issueA t q =>
    replace h : issue t q st = some st' := h
    exact inv_of_invx (fun x hs hc => issue_invx x hs hc h) hInv
  | retireA q =>
    replace h : retire q st = some st' := h
    exact inv_of_invx (fun x hs hc => retire_invx x hs hc h) hInv
  | transferA f t q =>
    replace h : transfer f t q st = some st' := h
    exact inv_of_invx (fun x hs hc => transfer_invx x hs hc h) hInv
  | openA o s =>
    replace h : openAct o s st = some st' := h
    exact inv_of_invx (fun x hs hc => openAct_invx x hs hc h) hInv
  | closeA o s =>
    replace h : closeAct o s st = some st' := h
    exact inv_of_invx (fun x hs hc => closeAct_invx x hs hc h) hInv
  | migrateA =>
    replace h : migrate st = some st' := h
    exact migrate_inv hInv h

theorem reachable_inv {st : State} (h : Reachable st) : Inv st := by
  induction h with
  | init r =>
    constructor
    · intro s
      rfl
    · intro s cs hcs
      simp [lookupStats] at hcs
  | step a _ hstep ih => exact exec_preserves_inv a ih hstep

/-! ### Frame lemmas -/

theorem getBal_addBal (l : List ((Name × SymCode) × Int)) (k k' : Name × SymCode) (d : Int) :
    getBal (addBal l k d) k' = if k = k' then getBal l k + d else getBal l k' := by
  unfold getBal
  rw [lookupBal_addBal]
  by_cases h : k = k' <;> simp [h]

theorem retire_state {q : Asset} {st st' : State} (h : retire q st = some st') :
    ∃ cs, lookupStats st.stats q.sym = some cs ∧ 0 < q.amount ∧
      st'.stats = modStats st.stats q.sym (incSupply (-q.amount)) ∧
      st'.accounts = addBal st.accounts (cs.issuer, q.sym) (-q.amount) ∧
      st'.config = st.config ∧ st'.egress = st.egress ∧ st'.ram = st.ram := by
  obtain ⟨cs, hcs, hq, hsub⟩ := retire_char h
  obtain ⟨bal, hbal, hle, rfl⟩ := sub_balance_char hsub
  exact ⟨cs, hcs, hq, rfl, rfl, rfl, rfl, rfl⟩

theorem issue_state {t : Name} {q : Asset} {st st' : State} (h : issue t q st = some st') :
    ∃ cs, lookupStats st.stats q.sym = some cs ∧ t = cs.issuer ∧ 0 < q.amount ∧
      q.amount ≤ cs.max_supply.amount - cs.supply.amount ∧
      st'.stats = modStats st.stats q.sym (incSupply q.amount) ∧
      st'.accounts = addBal st.accounts (t, q.sym) q.amount ∧
      st'.config = st.config ∧ st'.egress = st.egress ∧ st'.ram = st.ram := by
  obtain ⟨cs, hcs, hti, hq, hle, rfl⟩ := issue_char h
  exact ⟨cs, hcs, hti, hq, hle, rfl, rfl, rfl, rfl, rfl⟩

theorem ramtransferSys_state {f t : Name} {b : Int} {st st' : State}
    (h : ramtransferSys f t b st = some st') :
    st'.stats = st.stats ∧ st'.accounts = st.accounts ∧
      st'.config = st.config ∧ st'.egress = st.egress := by
  obtain ⟨_, _, rfl⟩ := ramtransferSys_char h
  exact ⟨rfl, rfl, rfl, rfl⟩

theorem transfer_state_ne {f t : Name} {q : Asset} {st st' : State} (ht : t ≠ SELF)
    (h : transfer f t q st = some st') :
    st'.stats = st.stats ∧
      st'.accounts = addBal (addBal st.accounts (f, q.sym) (-q.amount)) (t, q.sym) q.amount ∧
      st'.config = st.config ∧ st'.egress = st.egress ∧ st'.ram = st.ram := by
  obtain ⟨cs, hcs, hft, hq, hegr, st1, hsub, hrest⟩ := transfer_char h
  obtain ⟨bal, hbal, hle, rfl⟩ := sub_balance_char hsub
  rcases hrest with ⟨he, _⟩ | ⟨_, rfl⟩
  · exact absurd he ht
  · exact ⟨rfl, rfl, rfl, rfl, rfl⟩

/-- A transfer whose recipient is on the egress blocklist always aborts. -/
theorem transfer_blocked {f t : Name} {q : Asset} {st : State} (h : t ∈ st.egress) :
    transfer f t q st = none := by
  unfold transfer
  split
  · rfl
  · split
    · rename_i hg
      exact absurd h hg.2.2
    · rfl

/-- An unwrap request always aborts while the unwrap flag is disabled. -/
theorem unwrap_disabled {o : Name} {b : Int} {st : State}
    (h : (get_or_default st.config).unwrap_ram_enabled = false) :
    unwrap o b st = none := by
  unfold unwrap transfer
  split
  · rfl
  · split
    · split
      · rfl
      · rename_i st1 h1
        obtain ⟨bal, hbal, hle, rfl⟩ := sub_balance_char h1
        rw [if_pos rfl]
        unfold unwrap_ram
        rw [if_pos rfl]
        have hcfg : (get_or_default (add_balance SELF (⟨b, RAM_SYMBOL⟩ : Asset)
            ({ st with accounts := addBal st.accounts (o, RAM_SYMBOL) (-b) } : State)).config).unwrap_ram_enabled = false := h
        rw [hcfg]
        simp
    · rfl

/-! ### Claims -/

/-- Helper for claim C4: `wrap_ram` to the contract itself always aborts. -/
theorem wrap_ram_self (st : State) (bytes : Int) : wrap_ram SELF bytes st = none := by
  unfold wrap_ram
  split
  · rw [if_neg (by simp)]
  · rfl

/-- C4: for every policy state, a wrap delivery whose mint recipient is the
contract's own identity aborts, both at the `wrap_ram` engine level and for
a `logbuyram` purchase naming the contract as both payer and receiver; no
tokens are ever minted to the contract itself by a wrap trigger. -/
theorem claim4_no_self_mint (st : State) (bytes rb : Int) (q : Asset) :
    wrap_ram SELF bytes st = none ∧ on_logbuyram SELF SELF q bytes rb st = none := by
  refine ⟨wrap_ram_self st bytes, ?_⟩
  unfold on_logbuyram
  rw [if_neg (by simp)]
  exact wrap_ram_self st bytes

/-- C5: a generic token-transfer notification aborts exactly when its
recipient is the contract, for every sender, quantity, symbol and memo;
otherwise the state is returned unchanged. -/
theorem claim5_foreign_token_rejection (f t : Name) (q : Asset) (m : String) (st : State) :
    on_transfer f t q m st = if t = SELF then none else some st := by
  unfold on_transfer
  by_cases h : t = SELF <;> simp [h]

/-- C9: `migrate` aborts whenever the contract holds no balance row at all
for the WRAM symbol, because of the `require_find` on its own accounts
table. -/
theorem claim9_migrate_requires_self_row (st : State)
    (h : lookupBal st.accounts (SELF, RAM_SYMBOL) = none) : migrate st = none := by
  unfold migrate
  split
  · rfl
  · split
    · unfold migrateRest
      rename_i cs hcs _
      have h2 : lookupBal ({ st with stats := modStats st.stats RAM_SYMBOL (setMax 274877906944) } : State).accounts (SELF, RAM_SYMBOL) = none := h
      rw [h2]
    · rfl

/-- Witness for C9 at a concrete state with a stats row but no balance row. -/
theorem claim9_witness : migrate stNoRow = none :=
  claim9_migrate_requires_self_row stNoRow rfl

/-- C7: a transfer of the wrapped token to a blocklisted recipient always
aborts, both when invoked directly and as the delivery step of a wrap. -/
theorem claim7_blocklist (f t : Name) (q : Asset) (b : Int) (st : State)
    (h : t ∈ st.egress) :
    transfer f t q st = none ∧ wrap_ram t b st = none := by
  refine ⟨transfer_blocked h, ?_⟩
  unfold wrap_ram
  split
  · split
    · split
      · rfl
      · rename_i st1 h1
        split
        · rfl
        · rename_i st2 h2
          obtain ⟨_, _, rfl⟩ := ramtransferSys_char h1
          obtain ⟨cs, hcs, _, _, _, rfl⟩ := issue_char h2
          exact transfer_blocked h
    · rfl
  · rfl

/-- Witness for C7 at a concrete blocklisted recipient. -/
theorem claim7_witness :
    transfer 100 50 ⟨5, RAM_SYMBOL⟩ stBlock = none ∧ wrap_ram 50 5 stBlock = none :=
  claim7_blocklist 100 50 ⟨5, RAM_SYMBOL⟩ 5 stBlock (by decide)

/-- C8: when no config row has been written, the read policy defaults to
wrap enabled and unwrap disabled: a ramtransfer notification to the contract
passes the policy gate straight into `wrap_ram`, and every unwrap request
aborts. -/
theorem claim8_default_config (st : State) (f o : Name) (b b2 : Int) (m : String)
    (hc : st.config = none) (hm : m ≠ "ignore") :
    get_or_default st.config = ⟨true, false⟩ ∧
      on_ramtransfer f SELF b m st = wrap_ram f b st ∧
      unwrap o b2 st = none := by
  have hdef : get_or_default st.config = ⟨true, false⟩ := by
    rw [hc]
    rfl
  refine ⟨hdef, ?_, unwrap_disabled (by rw [hdef])⟩
  unfold on_ramtransfer
  rw [if_neg (by simp), if_neg hm, hdef]
  simp

/-- Witness for C8 at a concrete config-free state. -/
theorem claim8_witness :
    get_or_default stNoCfg.config = ⟨true, false⟩ ∧
      on_ramtransfer 100 SELF 5 "" stNoCfg = wrap_ram 100 5 stNoCfg ∧
      unwrap 100 5 stNoCfg = none :=
  claim8_default_config stNoCfg 100 100 5 5 "" rfl (by decide)

/-- C1 counterexample: with wrapping disabled, a `logbuyram` purchase
delivered to the contract is not rejected; it wraps and raises the supply,
because `on_logbuyram` never consults the wrap flag (eosio.wram.cpp lines
55-61, and the `cfg` documentation in eosio.wram.hpp line 27 limits the flag
to RAM-to-WRAM conversions). -/
theorem claim1_policy_gating_counterexample :
    (get_or_default stWrapOff.config).wrap_ram_enabled = false ∧
    (exec (.onLogbuyramT 100 SELF ⟨5, RAM_SYMBOL⟩ 5 5) stWrapOff).map
      (fun s => supplySum s RAM_SYMBOL) = some 5 ∧
    supplySum stWrapOff RAM_SYMBOL = 0 := by
  refine ⟨by decide, by decide, by decide⟩

/-- C1 amended: a `ramtransfer` wrap trigger aborts with no state change
while the wrap flag is disabled, and an unwrap request aborts with no state
change while the unwrap flag is disabled; `logbuyram` wrap triggers are not
gated by the wrap flag. -/
theorem claim1_policy_gating_amended (st : State) (f o : Name) (b b2 : Int) (m : String) :
    ((get_or_default st.config).wrap_ram_enabled = false → m ≠ "ignore" →
      exec (.onRamtransferT f SELF b m) st = none) ∧
    ((get_or_default st.config).unwrap_ram_enabled = false →
      exec (.unwrapA o b2) st = none) := by
  constructor
  · intro hw hm
    show (match ramtransferSys f SELF b st with
      | none => none
      | some st1 => on_ramtransfer f SELF b m st1) = none
    split
    · rfl
    · rename_i st1 h1
      unfold on_ramtransfer
      rw [if_neg (by simp), if_neg hm]
      have hcfg : (get_or_default st1.config).wrap_ram_enabled = false := by
        rw [(ramtransferSys_state h1).2.2.1]
        exact hw
      rw [hcfg]
      simp
  · intro hu
    exact unwrap_disabled hu

/-- Witness for the amended C1 with both flags disabled. -/
theorem claim1_witness :
    exec (.onRamtransferT 100 SELF 5 "") stAllOff = none ∧
      exec (.unwrapA 100 5) stAllOff = none :=
  ⟨(claim1_policy_gating_amended stAllOff 100 100 5 5 "").1 rfl (by decide),
   (claim1_policy_gating_amended stAllOff 100 100 5 5 "").2 rfl⟩

/-- Success shape of `migrate`: the WRAM ceiling ends at 256 GiB and the
custodial pool's WRAM balance grows by exactly the 128 GiB that are issued
and transferred to it. -/
theorem migrate_char {st st' : State} (h : migrate st = some st') :
    (∃ cs', lookupStats st'.stats RAM_SYMBOL = some cs' ∧
      cs'.max_supply.amount = 274877906944) ∧
    getBal st'.accounts (RAM_BANK, RAM_SYMBOL)
      = getBal st.accounts (RAM_BANK, RAM_SYMBOL) + 137438953472 := by
  unfold migrate at h
  split at h
  · simp at h
  · rename_i cs hcs
    split at h
    · unfold migrateRest at h
      split at h
      · simp at h
      · rename_i bal hbal
        split at h
        · simp at h
        · rename_i st1 h1
          split at h
          · simp at h
          · rename_i st2 h2
            split at h
            · simp at h
            · rename_i st3 h3
              have hrec : lookupStats ({ st with stats := modStats st.stats RAM_SYMBOL (setMax 274877906944) } : State).stats RAM_SYMBOL = some (setMax 274877906944 cs) := by
                show lookupStats (modStats st.stats RAM_SYMBOL (setMax 274877906944)) RAM_SYMBOL
                  = some (setMax 274877906944 cs)
                rw [lookupStats_modStats, if_pos rfl, hcs]
                rfl
              have hx1 : (∃ c1, lookupStats st1.stats RAM_SYMBOL = some c1 ∧
                  c1.max_supply.amount = 274877906944 ∧ c1.issuer = cs.issuer) ∧
                  (cs.issuer ≠ RAM_BANK → getBal st1.accounts (RAM_BANK, RAM_SYMBOL)
                    = getBal st.accounts (RAM_BANK, RAM_SYMBOL)) := by
                split at h1
                · obtain ⟨c0, hc0, _, hstats1, hacc1, _, _, _⟩ := retire_state h1
                  replace hc0 : lookupStats ({ st with stats := modStats st.stats RAM_SYMBOL (setMax 274877906944) } : State).stats RAM_SYMBOL = some c0 := hc0
                  rw [hrec] at hc0
                  cases Option.some.inj hc0
                  replace hstats1 : st1.stats
                      = modStats (modStats st.stats RAM_SYMBOL (setMax 274877906944)) RAM_SYMBOL (incSupply (-bal)) := hstats1
                  replace hacc1 : st1.accounts
                      = addBal st.accounts ((setMax 274877906944 cs).issuer, RAM_SYMBOL) (-bal) := hacc1
                  refine ⟨⟨incSupply (-bal) (setMax 274877906944 cs), ?_, rfl, rfl⟩, ?_⟩
                  · rw [hstats1, lookupStats_modStats, if_pos rfl, hrec]
                    rfl
                  · intro hib
                    rw [hacc1, getBal_addBal,
                      if_neg (by simp [setMax, Prod.ext_iff]; exact hib)]
                · cases Option.some.inj h1
                  exact ⟨⟨setMax 274877906944 cs, hrec, rfl, rfl⟩, fun _ => rfl⟩
              have hx2 : (∃ c1, lookupStats st2.stats RAM_SYMBOL = some c1 ∧
                  c1.max_supply.amount = 274877906944 ∧ c1.issuer = cs.issuer) ∧
                  (cs.issuer ≠ RAM_BANK → getBal st2.accounts (RAM_BANK, RAM_SYMBOL)
                    = getBal st.accounts (RAM_BANK, RAM_SYMBOL)) := by
                split at h2
                · obtain ⟨hst2, hacc2, _, _⟩ := ramtransferSys_state h2
                  obtain ⟨⟨c1, hc1, hm1, hi1⟩, hg1⟩ := hx1
                  refine ⟨⟨c1, ?_, hm1, hi1⟩, fun hib => ?_⟩
                  · rw [hst2]
                    exact hc1
                  · rw [hacc2]
                    exact hg1 hib
                · cases Option.some.inj h2
                  exact hx1
              obtain ⟨⟨c1, hc1, hm1, hi1⟩, hg1⟩ := hx2
              obtain ⟨c2, hc2, hti, _, _, hst3, hacc3, _, _, _⟩ := issue_state h3
              replace hc2 : lookupStats st2.stats RAM_SYMBOL = some c2 := hc2
              rw [hc1] at hc2
              cases Option.some.inj hc2
              have hiss : cs.issuer = SELF := by
                rw [← hi1, ← hti]
              have hbk : (RAM_BANK : Name) ≠ SELF := by decide
              obtain ⟨hstF, haccF, _, _, _⟩ := transfer_state_ne hbk h
              replace hst3 : st3.stats = modStats st2.stats RAM_SYMBOL (incSupply 137438953472) := hst3
              replace hacc3 : st3.accounts = addBal st2.accounts (SELF, RAM_SYMBOL) 137438953472 := hacc3
              replace haccF : st'.accounts
                  = addBal (addBal st3.accounts (SELF, RAM_SYMBOL) (-137438953472)) (RAM_BANK, RAM_SYMBOL) 137438953472 := haccF
              refine ⟨⟨incSupply 137438953472 c1, ?_, ?_⟩, ?_⟩
              · rw [hstF, hst3, lookupStats_modStats, if_pos rfl, hc1]
                rfl
              · show (incSupply 137438953472 c1).max_supply.amount = 274877906944
                rw [show (incSupply 137438953472 c1).max_supply = c1.max_supply from rfl]
                exact hm1
              · rw [haccF, getBal_addBal, if_pos rfl, getBal_addBal, if_neg (by decide),
                  hacc3, getBal_addBal, if_neg (by decide)]
                rw [hg1 (by rw [hiss]; decide)]
    · simp at h

/-- C6: once the recorded ceiling equals the 256 GiB migration target,
`migrate` aborts with no state change; in particular a second `migrate`
after a successful one always aborts. -/
theorem claim6_migrate_idempotent :
    (∀ st cs, lookupStats st.stats RAM_SYMBOL = some cs →
      cs.max_supply.amount = 274877906944 → migrate st = none) ∧
    (∀ st st', migrate st = some st' → migrate st' = none) := by
  have part1 : ∀ st cs, lookupStats st.stats RAM_SYMBOL = some cs →
      cs.max_supply.amount = 274877906944 → migrate st = none := by
    intro st cs hcs hmax
    unfold migrate
    rw [hcs]
    simp [hmax]
  refine ⟨part1, ?_⟩
  intro st st' h
  obtain ⟨⟨cs', hcs', hmax'⟩, _⟩ := migrate_char h
  exact part1 st' cs' hcs' hmax'

/-- Witness for C6: a state whose ceiling is already the target, and a
second `migrate` after a successful one. -/
theorem claim6_witness : migrate stC6Done = none ∧ migrate stMig' = none :=
  ⟨claim6_migrate_idempotent.1 stC6Done ⟨⟨0, RAM_SYMBOL⟩, ⟨274877906944, RAM_SYMBOL⟩, SELF⟩
      rfl rfl,
   claim6_migrate_idempotent.2 stMig stMig' rfl⟩

/-- C10: a successful `migrate` sets the WRAM ceiling to exactly
274877906944 units and issues exactly 137438953472 WRAM which it transfers
to `RAM_BANK` (`ramdeposit11`), raising the pool's balance by that amount. -/
theorem claim10_migrate_values (st st' : State) (h : migrate st = some st') :
    (∃ cs', lookupStats st'.stats RAM_SYMBOL = some cs' ∧
      cs'.max_supply.amount = 274877906944) ∧
    getBal st'.accounts (RAM_BANK, RAM_SYMBOL)
      = getBal st.accounts (RAM_BANK, RAM_SYMBOL) + 137438953472 :=
  migrate_char h

/-- Witness for C10 on a concrete successful migration. -/
theorem claim10_witness :
    (∃ cs', lookupStats stMig'.stats RAM_SYMBOL = some cs' ∧
      cs'.max_supply.amount = 274877906944) ∧
    getBal stMig'.accounts (RAM_BANK, RAM_SYMBOL)
      = getBal stMig.accounts (RAM_BANK, RAM_SYMBOL) + 137438953472 :=
  claim10_migrate_values stMig stMig' rfl

/-- C2: every reachable state satisfies the ledger invariant, for every
symbol and in particular for WRAM: the recorded supply equals the sum of
all account balances and stays at most the recorded ceiling; and every
trigger (wrap and unwrap triggers, `migrate`, and all ledger entry points)
preserves the invariant. -/
theorem claim2_ledger_invariant :
    (∀ st, Reachable st → Inv st) ∧
    (∀ (a : Act) (st st' : State), Inv st → exec a st = some st' → Inv st') :=
  ⟨fun _ h => reachable_inv h, fun a _ _ hInv h => exec_preserves_inv a hInv h⟩

/-- Witness for C2 at the fresh deployment state. -/
theorem claim2_witness : Inv stInit :=
  claim2_ledger_invariant.1 stInit (Reachable.init fun _ => 0)

/-- A successful ramtransfer-triggered wrap computes `wrapResult`. -/
theorem wrap_trigger_eq {st : State} {u : Name} {n : Int} {m : String} {cs : CurrencyStats}
    (h1 : 0 < n) (h2 : u ≠ SELF) (h4 : m ≠ "ignore")
    (h5 : (get_or_default st.config).wrap_ram_enabled = true)
    (h7 : u ∉ st.egress)
    (h9 : lookupStats st.stats RAM_SYMBOL = some cs) (h10 : cs.issuer = SELF)
    (h11 : cs.supply.amount + n ≤ cs.max_supply.amount)
    (h12 : n ≤ st.ram u) (h13 : 0 ≤ st.ram SELF)
    (h16 : 0 ≤ getBal st.accounts (SELF, RAM_SYMBOL)) :
    exec (.onRamtransferT u SELF n m) st = some (wrapResult st u n) := by
  have hsu : SELF ≠ u := Ne.symm h2
  have e1 : ramtransferSys u SELF n st
      = some { st with ram := updRam st.ram u SELF n } := by
    unfold ramtransferSys
    rw [if_pos ⟨h1, h12⟩]
  show (match ramtransferSys u SELF n st with
    | none => none
    | some st1 => on_ramtransfer u SELF n m st1) = some (wrapResult st u n)
  simp only [e1]
  unfold on_ramtransfer
  rw [if_neg (not_not_intro rfl), if_neg h4,
    if_pos (show (get_or_default ({ st with ram := updRam st.ram u SELF n } : State).config).wrap_ram_enabled = true from h5)]
  unfold wrap_ram
  rw [if_pos h1, if_pos h2]
  have e2 : ramtransferSys SELF RAM_BANK n { st with ram := updRam st.ram u SELF n }
      = some { st with ram := updRam (updRam st.ram u SELF n) SELF RAM_BANK n } := by
    unfold ramtransferSys
    have hr : ({ st with ram := updRam st.ram u SELF n } : State).ram SELF
        = st.ram SELF + n := by
      show updRam st.ram u SELF n SELF = st.ram SELF + n
      unfold updRam
      rw [if_neg hsu, if_pos rfl]
      ring
    rw [if_pos ⟨h1, by rw [hr]; omega⟩]
  simp only [e2]
  have e3 : issue SELF ⟨n, RAM_SYMBOL⟩
      { st with ram := updRam (updRam st.ram u SELF n) SELF RAM_BANK n }
      = some { st with
          accounts := addBal st.accounts (SELF, RAM_SYMBOL) n,
          stats := modStats st.stats RAM_SYMBOL (incSupply n),
          ram := updRam (updRam st.ram u SELF n) SELF RAM_BANK n } := by
    unfold issue
    simp only [h9]
    rw [if_pos ⟨h10.symm, h1, by omega⟩]
    rfl
  simp only [e3]
  have hlookC : lookupStats (modStats st.stats RAM_SYMBOL (incSupply n)) RAM_SYMBOL
      = some (incSupply n cs) := by
    rw [lookupStats_modStats, if_pos rfl, h9]
    rfl
  unfold transfer
  simp only [hlookC]
  rw [if_pos ⟨hsu, h1, (show u ∉ st.egress from h7)⟩]
  have e4 : sub_balance SELF ⟨n, RAM_SYMBOL⟩
      { st with
        accounts := addBal st.accounts (SELF, RAM_SYMBOL) n,
        stats := modStats st.stats RAM_SYMBOL (incSupply n),
        ram := updRam (updRam st.ram u SELF n) SELF RAM_BANK n }
      = some { st with
          accounts := addBal (addBal st.accounts (SELF, RAM_SYMBOL) n) (SELF, RAM_SYMBOL) (-n),
          stats := modStats st.stats RAM_SYMBOL (incSupply n),
          ram := updRam (updRam st.ram u SELF n) SELF RAM_BANK n } := by
    unfold sub_balance
    have hlb : lookupBal (addBal st.accounts (SELF, RAM_SYMBOL) n) (SELF, RAM_SYMBOL)
        = some ((lookupBal st.accounts (SELF, RAM_SYMBOL)).getD 0 + n) := by
      rw [lookupBal_addBal, if_pos rfl]
    simp only [hlb]
    rw [if_pos (by unfold getBal at h16; omega)]
  simp only [e4]
  split
  · rename_i he
    exact absurd he h2
  · rfl

/-- Unwrapping the `n` tokens of `wrapResult` computes `unwrapResult`. -/
theorem unwrap_after_wrap {st : State} {u : Name} {n : Int} {cs : CurrencyStats}
    (h1 : 0 < n) (h2 : u ≠ SELF) (h3 : u ≠ RAM_BANK)
    (h6 : (get_or_default st.config).unwrap_ram_enabled = true)
    (h8 : SELF ∉ st.egress)
    (h9 : lookupStats st.stats RAM_SYMBOL = some cs) (h10 : cs.issuer = SELF)
    (h14 : 0 ≤ st.ram RAM_BANK)
    (h15 : 0 ≤ getBal st.accounts (u, RAM_SYMBOL))
    (h16 : 0 ≤ getBal st.accounts (SELF, RAM_SYMBOL)) :
    unwrap u n (wrapResult st u n) = some (unwrapResult st u n) := by
  have hneSU : ((SELF, RAM_SYMBOL) : Name × SymCode) ≠ (u, RAM_SYMBOL) :=
    fun e => h2 (congrArg Prod.fst e).symm
  have hneUS : ((u, RAM_SYMBOL) : Name × SymCode) ≠ (SELF, RAM_SYMBOL) :=
    fun e => h2 (congrArg Prod.fst e)
  have hlookC : lookupStats (modStats st.stats RAM_SYMBOL (incSupply n)) RAM_SYMBOL
      = some (incSupply n cs) := by
    rw [lookupStats_modStats, if_pos rfl, h9]
    rfl
  unfold unwrap wrapResult transfer
  simp only [hlookC]
  rw [if_pos ⟨h2, h1, (show SELF ∉ st.egress from h8)⟩]
  have e1 : sub_balance u ⟨n, RAM_SYMBOL⟩
      { st with
        accounts := addBal (addBal (addBal st.accounts (SELF, RAM_SYMBOL) n)
          (SELF, RAM_SYMBOL) (-n)) (u, RAM_SYMBOL) n,
        stats := modStats st.stats RAM_SYMBOL (incSupply n),
        ram := updRam (updRam st.ram u SELF n) SELF RAM_BANK n }
      = some { st with
          accounts := addBal (addBal (addBal (addBal st.accounts (SELF, RAM_SYMBOL) n)
            (SELF, RAM_SYMBOL) (-n)) (u, RAM_SYMBOL) n) (u, RAM_SYMBOL) (-n),
          stats := modStats st.stats RAM_SYMBOL (incSupply n),
          ram := updRam (updRam st.ram u SELF n) SELF RAM_BANK n } := by
    unfold sub_balance
    have hlb : lookupBal (addBal (addBal (addBal st.accounts (SELF, RAM_SYMBOL) n)
        (SELF, RAM_SYMBOL) (-n)) (u, RAM_SYMBOL) n) (u, RAM_SYMBOL)
        = some ((lookupBal st.accounts (u, RAM_SYMBOL)).getD 0 + n) := by
      rw [lookupBal_addBal, if_pos rfl, lookupBal_addBal, if_neg hneSU,
        lookupBal_addBal, if_neg hneSU]
    simp only [hlb]
    rw [if_pos (by unfold getBal at h15; omega)]
  simp only [e1]
  split
  · unfold unwrap_ram
    rw [if_pos rfl]
    split
    · have hlb2 : lookupBal (addBal (addBal (addBal (addBal (addBal st.accounts
          (SELF, RAM_SYMBOL) n) (SELF, RAM_SYMBOL) (-n)) (u, RAM_SYMBOL) n)
          (u, RAM_SYMBOL) (-n)) (SELF, RAM_SYMBOL) n) (SELF, RAM_SYMBOL)
          = some ((lookupBal st.accounts (SELF, RAM_SYMBOL)).getD 0 + n + -n + n) := by
        rw [lookupBal_addBal, if_pos rfl, lookupBal_addBal, if_neg hneUS,
          lookupBal_addBal, if_neg hneUS, lookupBal_addBal, if_pos rfl,
          lookupBal_addBal, if_pos rfl]
        rfl
      have e2 : retire ⟨n, RAM_SYMBOL⟩ (add_balance SELF ⟨n, RAM_SYMBOL⟩
          { st with
            accounts := addBal (addBal (addBal (addBal st.accounts (SELF, RAM_SYMBOL) n)
              (SELF, RAM_SYMBOL) (-n)) (u, RAM_SYMBOL) n) (u, RAM_SYMBOL) (-n),
            stats := modStats st.stats RAM_SYMBOL (incSupply n),
            ram := updRam (updRam st.ram u SELF n) SELF RAM_BANK n })
          = some { st with
              accounts := addBal (addBal (addBal (addBal (addBal (addBal st.accounts
                (SELF, RAM_SYMBOL) n) (SELF, RAM_SYMBOL) (-n)) (u, RAM_SYMBOL) n)
                (u, RAM_SYMBOL) (-n)) (SELF, RAM_SYMBOL) n) (SELF, RAM_SYMBOL) (-n),
              stats := modStats (modStats st.stats RAM_SYMBOL (incSupply n)) RAM_SYMBOL
                (incSupply (-n)),
              ram := updRam (updRam st.ram u SELF n) SELF RAM_BANK n } := by
        show retire ⟨n, RAM_SYMBOL⟩
          { st with
            accounts := addBal (addBal (addBal (addBal (addBal st.accounts
              (SELF, RAM_SYMBOL) n) (SELF, RAM_SYMBOL) (-n)) (u, RAM_SYMBOL) n)
              (u, RAM_SYMBOL) (-n)) (SELF, RAM_SYMBOL) n,
            stats := modStats st.stats RAM_SYMBOL (incSupply n),
            ram := updRam (updRam st.ram u SELF n) SELF RAM_BANK n } = _
        unfold retire
        simp only [hlookC]
        rw [if_pos h1, show (incSupply n cs).issuer = SELF from h10]
        unfold sub_balance
        simp only [hlb2]
        rw [if_pos (by unfold getBal at h16; omega)]
      simp only [e2]
      have hr : updRam (updRam st.ram u SELF n) SELF RAM_BANK n RAM_BANK
          = st.ram RAM_BANK + n := by
        unfold updRam
        rw [if_neg (show (RAM_BANK : Name) ≠ SELF by decide), if_pos rfl,
          if_neg (Ne.symm h3)]
        ring
      have e3 : ramtransferSys RAM_BANK u n { st with
          accounts := addBal (addBal (addBal (addBal (addBal (addBal st.accounts
            (SELF, RAM_SYMBOL) n) (SELF, RAM_SYMBOL) (-n)) (u, RAM_SYMBOL) n)
            (u, RAM_SYMBOL) (-n)) (SELF, RAM_SYMBOL) n) (SELF, RAM_SYMBOL) (-n),
          stats := modStats (modStats st.stats RAM_SYMBOL (incSupply n)) RAM_SYMBOL
            (incSupply (-n)),
          ram := updRam (updRam st.ram u SELF n) SELF RAM_BANK n }
          = some (unwrapResult st u n) := by
        unfold ramtransferSys
        rw [if_pos ⟨h1, by
          show n ≤ updRam (updRam st.ram u SELF n) SELF RAM_BANK n RAM_BANK
          rw [hr]
          omega⟩]
        rfl
      exact e3
    · rename_i hflag
      exact absurd h6 hflag
  · rename_i hss
    simp at hss

/-- C3: wrapping `n > 0` bytes from an ordinary account `u` via a
ramtransfer trigger and then unwrapping the resulting `n` tokens restores
both `u`'s RAM holding and the WRAM supply to their values before the wrap,
whenever both policy flags are enabled and the run can succeed (`u` is not
the contract or the pool, nobody involved is blocklisted, the stats row
exists with the contract as issuer and room for `n`, and balances are
non-negative). -/
theorem claim3_round_trip (st : State) (u : Name) (n : Int) (m : String) (cs : CurrencyStats)
    (h1 : 0 < n) (h2 : u ≠ SELF) (h3 : u ≠ RAM_BANK) (h4 : m ≠ "ignore")
    (h5 : (get_or_default st.config).wrap_ram_enabled = true)
    (h6 : (get_or_default st.config).unwrap_ram_enabled = true)
    (h7 : u ∉ st.egress) (h8 : SELF ∉ st.egress)
    (h9 : lookupStats st.stats RAM_SYMBOL = some cs) (h10 : cs.issuer = SELF)
    (h11 : cs.supply.amount + n ≤ cs.max_supply.amount)
    (h12 : n ≤ st.ram u) (h13 : 0 ≤ st.ram SELF) (h14 : 0 ≤ st.ram RAM_BANK)
    (h15 : 0 ≤ getBal st.accounts (u, RAM_SYMBOL))
    (h16 : 0 ≤ getBal st.accounts (SELF, RAM_SYMBOL)) :
    ∃ st1 st2, exec (.onRamtransferT u SELF n m) st = some st1 ∧
      exec (.unwrapA u n) st1 = some st2 ∧
      st2.ram u = st.ram u ∧ supplySum st2 RAM_SYMBOL = supplySum st RAM_SYMBOL := by
  refine ⟨wrapResult st u n, unwrapResult st u n,
    wrap_trigger_eq h1 h2 h4 h5 h7 h9 h10 h11 h12 h13 h16, ?_, ?_, ?_⟩
  · exact unwrap_after_wrap h1 h2 h3 h6 h8 h9 h10 h14 h15 h16
  · show updRam (updRam (updRam st.ram u SELF n) SELF RAM_BANK n) RAM_BANK u n u
      = st.ram u
    unfold updRam
    rw [if_pos rfl, if_neg h3, if_neg h2]
    ring
  · have hlookC : lookupStats (modStats st.stats RAM_SYMBOL (incSupply n)) RAM_SYMBOL
        = some (incSupply n cs) := by
      rw [lookupStats_modStats, if_pos rfl, h9]
      rfl
    show supplySumL (modStats (modStats st.stats RAM_SYMBOL (incSupply n)) RAM_SYMBOL
      (incSupply (-n))) RAM_SYMBOL = supplySumL st.stats RAM_SYMBOL
    rw [supplySumL_modStats hlookC (-n), supplySumL_modStats h9 n, if_pos rfl, if_pos rfl]
    ring

/-- Witness for C3 at a concrete state and `n = 5`. -/
theorem claim3_witness :
    ∃ st1 st2, exec (.onRamtransferT 100 SELF 5 "") stRT = some st1 ∧
      exec (.unwrapA 100 5) st1 = some st2 ∧
      st2.ram 100 = stRT.ram 100 ∧ supplySum st2 RAM_SYMBOL = supplySum stRT RAM_SYMBOL :=
  claim3_round_trip stRT 100 5 "" ⟨⟨0, RAM_SYMBOL⟩, ⟨10000000, RAM_SYMBOL⟩, SELF⟩
    (by decide) (by decide) (by decide) (by decide) rfl rfl (by decide) (by decide)
    rfl rfl (by decide) (by decide) (by decide) (by decide) (by decide) (by decide)

end Wram
